import Mathlib

/-!
A shallow embedding of the core command pipeline of
`src/pygovee/bluetooth/lightstrip_ble.py`: frame construction and validation
in `BLEController._send`, the controller operations `set_brightness` and
`set_rgb`, the worker loop of `_BLEThread.work` (queue polling, keep-alive
injection, stop flag), the `Queue.put`/`task_done`/`join` accounting that
implements blocking sends, and the connect/ready handshake of
`BLEController.__init__`. Machine integers are modelled as `ℤ`/`ℕ` with
explicit `% 256` where the source masks; clock readings from `time()` are
modelled as `ℚ`.
-/

set_option autoImplicit false

namespace PyGovee

/-- Error taxonomy of the specification (section 7), onto which the
`ValueError`s raised by the source are mapped: the length check of `_send`
line 99 is `PayloadTooLong`, the byte-range failure of `bytes(payload)` on
line 103 is `OutOfRange`, the non-integer command check of line 94 is
`InvalidCommand` (vacuous in this typed embedding), and `ConnectionFailure`
is the connection-error kind the spec assigns to stopped workers. -/
inductive ErrorKind where
  | InvalidCommand
  | PayloadTooLong
  | OutOfRange
  | ConnectionFailure
deriving DecidableEq, Repr

/-- A wire frame: a list of byte values, each in 0..255. -/
abbrev Frame := List ℕ

/-- XOR fold over a byte list: the checksum loop of `_send` (lines 109-111)
and of the keep-alive construction in `work` (lines 43-45). -/
def xorFold (l : List ℕ) : ℕ := l.foldl (fun a b => a ^^^ b) 0

/-- Frame construction of `BLEController._send`, lines 102-113: the command
is masked with `cmd & 0xFF` (Python's `&` with `0xFF` on an arbitrary int is
the mathematically non-negative remainder, i.e. `Int.emod` by 256), the body
`[0x33, cmd] + payload` is padded with zero bytes to 19 bytes, and the XOR
checksum masked with `& 0xFF` is appended. Callers establish that every
payload entry is in 0..255 (the `bytes(payload)` conversion), so
`Int.toNat` is exact. -/
def buildFrame (cmd : ℤ) (payload : List ℤ) : Frame :=
  let body : List ℕ := [0x33, (cmd % 256).toNat] ++ payload.map Int.toNat
  let padded := body ++ List.replicate (19 - body.length) 0
  padded ++ [xorFold padded % 256]

/-- The keep-alive frame built inline by `_BLEThread.work`, lines 41-46:
`bytes([0xAA, 0x01])` padded with `19 - 2` zero bytes, then the XOR checksum
masked with `& 0xFF`. -/
def keepAliveFrame : Frame :=
  let body : List ℕ := [0xAA, 0x01] ++ List.replicate 17 0
  body ++ [xorFold body % 256]

/-- Python's `round((value / 100) * 0xFF)` from `set_brightness` line 156,
computed exactly: Python's `round` is round-half-to-even, and for every
integer `0 ≤ value ≤ 100` (the only values reaching line 156) the
double-precision product `(value / 100) * 255` rounds to a double whose
`round` agrees with round-half-to-even of the exact rational
`value * 255 / 100`, checked exhaustively over the whole domain. -/
def scaleBrightness (v : ℤ) : ℤ :=
  if 50 < v * 255 % 100 then v * 255 / 100 + 1
  else if v * 255 % 100 < 50 then v * 255 / 100
  else if v * 255 / 100 % 2 = 0 then v * 255 / 100
  else v * 255 / 100 + 1

/-- Combined state of one `BLEController` and its `_BLEThread` worker.
`queue` is the contents of `self._queue` (front = next `get_nowait`),
`putCount`/`doneCount` are the `Queue.put` / `Queue.task_done` totals whose
difference is the `unfinished_tasks` counter that `Queue.join` waits on,
`stop` is `_BLEThread.stop`, `transmitted` records the frames written by
`write_gatt_char` in order, and `prevTime` is the worker's `prev_time`.
Queue items and transmissions carry a ghost tag: `some tid` for the caller
thread that enqueued a command frame, `none` for the worker's own keep-alive
frames; the wire content is the `Frame` component alone. `enqueued` is a
ghost record of every frame ever `put`, in order. -/
structure SysState where
  queue : List (Option ℕ × Frame)
  putCount : ℕ
  doneCount : ℕ
  stop : Bool
  transmitted : List (Option ℕ × Frame)
  prevTime : ℚ
  enqueued : List (Option ℕ × Frame)
deriving DecidableEq, Repr

/-- State at construction time (lines 64-71): empty queue, counters zero,
stop flag clear, nothing transmitted, `prev_time = time()` taken as clock
zero. -/
def initState : SysState :=
  { queue := [], putCount := 0, doneCount := 0, stop := false,
    transmitted := [], prevTime := 0, enqueued := [] }

/-- `BLEController._send`, lines 90-116, acting on the combined state:
validate, build the frame, and `queue.put` it. The `isinstance` checks of
lines 94-98 are vacuous here (`cmd` and the payload entries are integers by
type). The length check of line 99 raises `Payload too long` first; a payload
entry outside 0..255 then makes `bytes(payload)` on line 103 raise
`ValueError: bytes must be in range(0, 256)`, the spec's `OutOfRange`. On
either failure the state is returned untouched: the exception propagates
before line 116 runs. Note that `_send` consults no worker state: neither
`stop` nor readiness. The `queue.join()` of lines 119-120 is a pure wait
whose postcondition is `drained`; it changes no state. -/
def _send (s : SysState) (tid : ℕ) (cmd : ℤ) (payload : List ℤ) :
    SysState × Except ErrorKind Frame :=
  if 17 < payload.length then (s, .error .PayloadTooLong)
  else if payload.any (fun x => decide (x < 0) || decide (255 < x)) then
    (s, .error .OutOfRange)
  else
    ({ s with queue := s.queue ++ [(some tid, buildFrame cmd payload)],
              enqueued := s.enqueued ++ [(some tid, buildFrame cmd payload)],
              putCount := s.putCount + 1 },
     .ok (buildFrame cmd payload))

/-- `BLEController.set_brightness`, lines 148-157: reject values outside
`0 <= value <= 100` with a `ValueError` (`OutOfRange`), otherwise scale to a
byte and send on command `0x04`. -/
def set_brightness (s : SysState) (tid : ℕ) (value : ℤ) :
    SysState × Except ErrorKind Frame :=
  if 0 ≤ value ∧ value ≤ 100 then _send s tid 0x04 [scaleBrightness value]
  else (s, .error .OutOfRange)

/-- `BLEController.set_rgb`, lines 159-161: no validation of its own; the
payload `[0x02, r, g, b]` is range-checked only by the `bytes` conversion
inside `_send`. -/
def set_rgb (s : SysState) (tid : ℕ) (r g b : ℤ) :
    SysState × Except ErrorKind Frame :=
  _send s tid 0x05 [0x02, r, g, b]

/-- An interaction with the shared state: `enq` is a caller thread running
`_send`, `poll` is one iteration of the worker loop of `_BLEThread.work`
(lines 34-51) with `now` the reading `time()` returns during that iteration,
and `stopSignal` is `stop_work` (lines 56-58). -/
inductive Event where
  | enq (tid : ℕ) (cmd : ℤ) (payload : List ℤ)
  | poll (now : ℚ)
  | stopSignal
deriving Repr

/-- One step of the combined system. A `poll` on a stopped worker changes
nothing (the `while not self.stop` loop has exited). Otherwise, following
lines 34-51: if `get_nowait` yields a frame, `prev_time` is reset and the
frame is written and marked `task_done`; on `Empty`, a keep-alive frame is
written and `prev_time` reset exactly when `time() > prev_time + 3`. -/
def step (s : SysState) : Event → SysState
  | .enq tid cmd payload => (_send s tid cmd payload).1
  | .stopSignal => { s with stop := true }
  | .poll now =>
      if s.stop then s
      else
        match s.queue with
        | f :: rest =>
            { s with queue := rest, prevTime := now,
                     transmitted := s.transmitted ++ [f],
                     doneCount := s.doneCount + 1 }
        | [] =>
            if s.prevTime + 3 < now then
              { s with transmitted := s.transmitted ++ [(none, keepAliveFrame)],
                       prevTime := now }
            else s

/-- Run a sequence of interleaved caller and worker events from a state. -/
def run (s : SysState) (es : List Event) : SysState := es.foldl step s

/-- The condition `Queue.join` (line 120) blocks on: `unfinished_tasks == 0`,
i.e. every `put` has been matched by a `task_done` from line 51. -/
def drained (s : SysState) : Prop := s.putCount = s.doneCount

/-- The transmitted frames that came out of the command queue, identified by
their ghost tag (keep-alive frames are transmitted with tag `none`). -/
def cmdSent (s : SysState) : List (Option ℕ × Frame) :=
  s.transmitted.filter fun p => p.1.isSome

/-- A state reached by enqueueing one command, letting the worker transmit
it, then calling `disconnect()` (which runs `stop_work`, lines 131-138 and
56-58). -/
def postDisconnect : SysState :=
  run initState [Event.enq 0 4 [50], Event.poll 1, Event.stopSignal]

/-- Phase of the worker thread during startup, lines 27-33 and 53-54:
`connecting` while `async with self.client` is entering, `ready` once the
connection succeeded and `self.ready = True` ran, `dead` if the connect
raised — the exception then escapes `work` and `run` and terminates the
thread, and nothing delivers it to the thread that called the constructor. -/
inductive StartPhase where
  | connecting
  | ready
  | dead
deriving DecidableEq, Repr

/-- One scheduler step of the starting worker thread: entering the
connection context either succeeds (then `self.ready = True`) or raises
(then the thread dies); both outcomes are absorbing. -/
def startStep (connectOk : Bool) : StartPhase → StartPhase
  | .connecting => if connectOk then .ready else .dead
  | p => p

/-- The worker's phase after `n` scheduler steps from thread start. -/
def startAfter (connectOk : Bool) : ℕ → StartPhase
  | 0 => .connecting
  | n + 1 => startStep connectOk (startAfter connectOk n)

/-- The value of `self._worker.ready` the constructor's busy-wait loop
(lines 74-76) observes after `n` scheduler steps: `True` exactly in the
`ready` phase. -/
def readyFlag (connectOk : Bool) (n : ℕ) : Bool :=
  startAfter connectOk n == StartPhase.ready

/-- Termination condition of the `block=True` busy-wait
`while not self._worker.ready: pass` (lines 74-76): some number of scheduler
steps shows the ready flag set. -/
def initWaitTerminates (connectOk : Bool) : Prop :=
  ∃ n, readyFlag connectOk n = true

/-! ### Helper lemmas about frame construction -/

lemma payloadCheck_false (payload : List ℤ) (h : ∀ x ∈ payload, 0 ≤ x ∧ x ≤ 255) :
    (payload.any fun x => decide (x < 0) || decide (255 < x)) = false := by
  rw [List.any_eq_false]
  intro x hx
  have := h x hx
  simp
  omega

lemma buildFrame_eq (cmd : ℤ) (payload : List ℤ) (hc0 : 0 ≤ cmd) (hc1 : cmd ≤ 255)
    (hlen : payload.length ≤ 17) :
    buildFrame cmd payload =
      (0x33 :: cmd.toNat ::
        (payload.map Int.toNat ++ List.replicate (17 - payload.length) 0)) ++
      [xorFold (0x33 :: cmd.toNat ::
        (payload.map Int.toNat ++ List.replicate (17 - payload.length) 0)) % 256] := by
  have hm : cmd % 256 = cmd := Int.emod_eq_of_lt hc0 (by omega)
  have hl : 19 - ([0x33, cmd.toNat] ++ payload.map Int.toNat).length
      = 17 - payload.length := by
    simp only [List.length_append, List.length_map, List.length_cons, List.length_nil]
    omega
  simp only [buildFrame, hm, hl]
  simp [List.append_assoc]

lemma specBody_length (cmd : ℤ) (payload : List ℤ) (hlen : payload.length ≤ 17) :
    (0x33 :: cmd.toNat ::
      (payload.map Int.toNat ++ List.replicate (17 - payload.length) 0)).length = 19 := by
  simp only [List.length_cons, List.length_append, List.length_map, List.length_replicate]
  omega

lemma buildFrame_length (cmd : ℤ) (payload : List ℤ) (hlen : payload.length ≤ 17) :
    (buildFrame cmd payload).length = 20 := by
  simp only [buildFrame, List.length_append, List.length_cons, List.length_map,
    List.length_replicate, List.length_nil]
  omega

lemma buildFrame_take19 (cmd : ℤ) (payload : List ℤ) (hc0 : 0 ≤ cmd) (hc1 : cmd ≤ 255)
    (hlen : payload.length ≤ 17) :
    (buildFrame cmd payload).take 19 =
      0x33 :: cmd.toNat ::
        (payload.map Int.toNat ++ List.replicate (17 - payload.length) 0) := by
  rw [buildFrame_eq cmd payload hc0 hc1 hlen]
  exact List.take_left' (specBody_length cmd payload hlen)

lemma getLast_append_single {α : Type} (l : List α) (x : α) :
    (l ++ [x]).getLast? = some x := by simp

lemma scaleBrightness_nonneg (v : ℤ) (h0 : 0 ≤ v) : 0 ≤ scaleBrightness v := by
  unfold scaleBrightness
  split_ifs <;> omega

lemma scaleBrightness_le (v : ℤ) (h0 : 0 ≤ v) (h100 : v ≤ 100) :
    scaleBrightness v ≤ 255 := by
  unfold scaleBrightness
  split_ifs <;> omega

lemma buildFrame_getLast (cmd : ℤ) (payload : List ℤ) (hc0 : 0 ≤ cmd) (hc1 : cmd ≤ 255)
    (hlen : payload.length ≤ 17) :
    (buildFrame cmd payload).getLast? =
      some (xorFold ((buildFrame cmd payload).take 19) % 256) := by
  rw [buildFrame_eq cmd payload hc0 hc1 hlen,
    List.take_left' (specBody_length cmd payload hlen), getLast_append_single]

lemma buildFrame_head (cmd : ℤ) (payload : List ℤ) :
    (buildFrame cmd payload).head? = some 0x33 := rfl

lemma buildFrame_get1 (cmd : ℤ) (payload : List ℤ) :
    (buildFrame cmd payload).get? 1 = some (cmd % 256).toNat := rfl

/-! ### The reachable-state invariant of the queue/worker system -/

/-- Invariant tying the ghost record of enqueued frames to the queue and the
transmission log: the command frames transmitted so far followed by the queue
contents are exactly the frames enqueued, in order; the put counter counts
the enqueued frames; the done counter counts the transmitted command frames;
and everything in the queue is a caller-tagged frame whose first byte is the
`0x33` command prefix. -/
def Inv (s : SysState) : Prop :=
  cmdSent s ++ s.queue = s.enqueued ∧
  s.putCount = s.enqueued.length ∧
  s.doneCount = (cmdSent s).length ∧
  ∀ p ∈ s.queue, p.1.isSome = true ∧ p.2.head? = some 0x33

lemma inv_init : Inv initState := by
  refine ⟨rfl, rfl, rfl, ?_⟩
  intro p hp
  simp [initState] at hp

lemma inv_step (s : SysState) (e : Event) (h : Inv s) : Inv (step s e) := by
  obtain ⟨h1, h2, h3, h4⟩ := h
  cases e with
  | enq tid cmd payload =>
      simp only [step, _send]
      split
      · exact ⟨h1, h2, h3, h4⟩
      · split
        · exact ⟨h1, h2, h3, h4⟩
        · refine ⟨?_, ?_, h3, ?_⟩
          · simp only [cmdSent] at h1 ⊢
            rw [← List.append_assoc, h1]
          · simp [h2]
          · intro p hp
            rcases List.mem_append.1 hp with hp | hp
            · exact h4 p hp
            · simp at hp
              subst hp
              exact ⟨rfl, buildFrame_head cmd payload⟩
  | stopSignal =>
      exact ⟨h1, h2, h3, h4⟩
  | poll now =>
      by_cases hstop : s.stop
      · have hgoal : step s (Event.poll now) = s := by simp [step, hstop]
        rw [hgoal]
        exact ⟨h1, h2, h3, h4⟩
      · cases hq : s.queue with
        | nil =>
            by_cases ht : s.prevTime + 3 < now
            · have hgoal : step s (Event.poll now) =
                  { s with transmitted := s.transmitted ++ [(none, keepAliveFrame)],
                           prevTime := now } := by
                simp [step, hstop, hq, ht]
              rw [hgoal]
              refine ⟨?_, h2, ?_, fun p hp => h4 p hp⟩
              · simpa [cmdSent, List.filter_append] using h1
              · simpa [cmdSent, List.filter_append] using h3
            · have hgoal : step s (Event.poll now) = s := by
                simp [step, hstop, hq, ht]
              rw [hgoal]
              exact ⟨h1, h2, h3, h4⟩
        | cons f rest =>
            have hf := h4 f (by rw [hq]; exact List.mem_cons_self f rest)
            have hgoal : step s (Event.poll now) =
                { s with queue := rest, prevTime := now,
                         transmitted := s.transmitted ++ [f],
                         doneCount := s.doneCount + 1 } := by
              simp [step, hstop, hq]
            have hsent : (s.transmitted ++ [f]).filter (fun p => p.1.isSome) =
                s.transmitted.filter (fun p => p.1.isSome) ++ [f] := by
              simp [List.filter_append, hf.1]
            rw [hgoal]
            refine ⟨?_, h2, ?_, ?_⟩
            · show (s.transmitted ++ [f]).filter (fun p => p.1.isSome) ++ rest
                = s.enqueued
              rw [hsent, List.append_assoc]
              rw [hq] at h1
              simpa [cmdSent] using h1
            · show s.doneCount + 1 =
                ((s.transmitted ++ [f]).filter (fun p => p.1.isSome)).length
              rw [hsent]
              simp only [cmdSent] at h3
              simp [h3]
            · intro p hp
              exact h4 p (by rw [hq]; exact List.mem_cons_of_mem f hp)

lemma inv_run (es : List Event) : ∀ s : SysState, Inv s → Inv (run s es) := by
  induction es with
  | nil => exact fun s h => h
  | cons e es ih => exact fun s h => ih (step s e) (inv_step s e h)

lemma run_inv (es : List Event) : Inv (run initState es) :=
  inv_run es initState inv_init

lemma cmdSent_filter_tag (s : SysState) (t : ℕ) :
    (cmdSent s).filter (fun p => p.1 == some t) =
      s.transmitted.filter (fun p => p.1 == some t) := by
  unfold cmdSent
  rw [List.filter_filter]
  apply List.filter_congr
  intro x _
  cases h : x.1 <;> simp [h]

/-! ### Helper lemmas about the failed-connect start phase -/

lemma startAfter_false_ne_ready (n : ℕ) : startAfter false n ≠ StartPhase.ready := by
  induction n with
  | zero => simp [startAfter]
  | succ n ih =>
      rw [startAfter]
      cases h : startAfter false n with
      | connecting => simp [startStep]
      | ready => exact absurd h ih
      | dead => simp [startStep]

lemma readyFlag_false (n : ℕ) : readyFlag false n = false := by
  have := startAfter_false_ne_ready n
  simp only [readyFlag]
  simpa using this

lemma not_initWaitTerminates_false : ¬ initWaitTerminates false := by
  rintro ⟨n, hn⟩
  rw [readyFlag_false n] at hn
  exact Bool.false_ne_true hn

/-! ### Claim theorems -/

/-- C1: for every command byte in 0..255 and every payload of at most 17
bytes (each entry a byte value), `_send` succeeds with a frame of exactly 20
bytes: byte 0 is `0x33`, byte 1 the command code, bytes 2..18 the payload
left-justified and zero-padded, and byte 19 the XOR of bytes 0..18 masked to
8 bits. -/
theorem send_frame_format (s : SysState) (tid : ℕ) (cmd : ℤ) (payload : List ℤ)
    (hc0 : 0 ≤ cmd) (hc1 : cmd ≤ 255) (hlen : payload.length ≤ 17)
    (hbytes : ∀ x ∈ payload, 0 ≤ x ∧ x ≤ 255) :
    (_send s tid cmd payload).2 = Except.ok (buildFrame cmd payload) ∧
    (buildFrame cmd payload).length = 20 ∧
    (buildFrame cmd payload).take 19 =
      0x33 :: cmd.toNat ::
        (payload.map Int.toNat ++ List.replicate (17 - payload.length) 0) ∧
    (buildFrame cmd payload).getLast? =
      some (xorFold ((buildFrame cmd payload).take 19) % 256) := by
  have hany := payloadCheck_false payload hbytes
  have h17 : ¬ 17 < payload.length := by omega
  refine ⟨?_, buildFrame_length cmd payload hlen,
    buildFrame_take19 cmd payload hc0 hc1 hlen,
    buildFrame_getLast cmd payload hc0 hc1 hlen⟩
  simp [_send, h17, hany]

theorem send_frame_format_witness :
    (_send initState 0 4 [1, 2]).2 = Except.ok (buildFrame 4 [1, 2]) ∧
    (buildFrame 4 [1, 2]).length = 20 ∧
    (buildFrame 4 [1, 2]).take 19 =
      0x33 :: (4 : ℤ).toNat ::
        (([1, 2] : List ℤ).map Int.toNat ++
          List.replicate (17 - ([1, 2] : List ℤ).length) 0) ∧
    (buildFrame 4 [1, 2]).getLast? =
      some (xorFold ((buildFrame 4 [1, 2]).take 19) % 256) :=
  send_frame_format initState 0 4 [1, 2] (by decide) (by decide) (by decide) (by decide)

/-- C2 counterexample: `_send` called with command 256, which lies outside
the byte range 0..255, does not fail with `InvalidCommand`: the command is
masked with `& 0xFF` to `0x00` (lines 94-95 only reject non-integers, and
line 102 masks) and the frame is built and enqueued with command byte 0. -/
theorem send_invalid_command_cex :
    (_send initState 0 256 []).2 = Except.ok (buildFrame 256 []) ∧
    buildFrame 256 [] = buildFrame 0 [] ∧
    (buildFrame 256 []).get? 1 = some 0 :=
  ⟨rfl, by decide, rfl⟩

/-- C2 amended: `_send` fails with `PayloadTooLong` for every payload longer
than 17 bytes; on any validation failure the state (in particular the queue)
is unchanged and no frame is produced; every frame a successful `_send`
produces is exactly 20 bytes, never truncated. Command values outside 0..255
are not rejected: the command byte of the built frame is `cmd & 0xFF`. -/
theorem send_validation (s : SysState) (tid : ℕ) (cmd : ℤ) (payload : List ℤ) :
    (17 < payload.length →
      _send s tid cmd payload = (s, Except.error ErrorKind.PayloadTooLong)) ∧
    ((_send s tid cmd payload).2.isOk = false → (_send s tid cmd payload).1 = s) ∧
    (∀ f : Frame, (_send s tid cmd payload).2 = Except.ok f →
      f.length = 20 ∧ f.get? 1 = some (cmd % 256).toNat) := by
  refine ⟨?_, ?_, ?_⟩
  · intro h
    simp [_send, h]
  · simp only [_send]
    split
    · intro _
      rfl
    · split
      · intro _
        rfl
      · intro h
        exact absurd h (by simp [Except.isOk, Except.toBool])
  · intro f hf
    simp only [_send] at hf
    split at hf
    · simp at hf
    · split at hf
      · simp at hf
      · rename_i h17 _hany
        have hb : buildFrame cmd payload = f := by simpa using hf
        rw [← hb]
        exact ⟨buildFrame_length cmd payload (by omega), buildFrame_get1 cmd payload⟩

/-- C3: `set_brightness` fails with `OutOfRange` for every value outside
[0, 100]; for every value in [0, 100] it sends command `0x04` with a single
payload byte `round((value / 100) * 0xFF)` (Python's round-half-to-even,
modelled exactly by `scaleBrightness`), so byte 2 of the frame holds the
scaled value and bytes 3..18 are zero; the endpoints scale to `0x00` and
`0xFF`. -/
theorem set_brightness_spec (s : SysState) (tid : ℕ) (value : ℤ) :
    ((value < 0 ∨ 100 < value) →
      set_brightness s tid value = (s, Except.error ErrorKind.OutOfRange)) ∧
    (0 ≤ value ∧ value ≤ 100 →
      (set_brightness s tid value).2 =
        Except.ok (buildFrame 0x04 [scaleBrightness value]) ∧
      (buildFrame 0x04 [scaleBrightness value]).take 19 =
        [0x33, 0x04, (scaleBrightness value).toNat] ++ List.replicate 16 0) ∧
    scaleBrightness 0 = 0 ∧ scaleBrightness 100 = 255 := by
  refine ⟨?_, ?_, by decide, by decide⟩
  · intro h
    have hno : ¬ (0 ≤ value ∧ value ≤ 100) := by omega
    simp [set_brightness, hno]
  · rintro ⟨h0, h100⟩
    have hs : 0 ≤ scaleBrightness value ∧ scaleBrightness value ≤ 255 :=
      ⟨scaleBrightness_nonneg value h0, scaleBrightness_le value h0 h100⟩
    have hany : ([scaleBrightness value] : List ℤ).any
        (fun x => decide (x < 0) || decide (255 < x)) = false := by
      apply payloadCheck_false
      intro x hx
      simp at hx
      rw [hx]
      exact hs
    constructor
    · simp [set_brightness, h0, h100, _send, hany]
    · have ht := buildFrame_take19 0x04 [scaleBrightness value]
        (by norm_num) (by norm_num) (by norm_num)
      simpa using ht

/-- C4: `set_rgb` fails with `OutOfRange` (via the byte-range check inside
`_send`) whenever any of r, g, b lies outside 0..255; for in-range values it
sends command `0x05` with payload `[0x02, r, g, b]`, and in particular
`set_rgb 255 0 128` produces payload bytes `[0x02, 0xFF, 0x00, 0x80]`. -/
theorem set_rgb_spec (s : SysState) (tid : ℕ) (r g b : ℤ) :
    ((r < 0 ∨ 255 < r ∨ g < 0 ∨ 255 < g ∨ b < 0 ∨ 255 < b) →
      set_rgb s tid r g b = (s, Except.error ErrorKind.OutOfRange)) ∧
    ((0 ≤ r ∧ r ≤ 255) → (0 ≤ g ∧ g ≤ 255) → (0 ≤ b ∧ b ≤ 255) →
      (set_rgb s tid r g b).2 = Except.ok (buildFrame 0x05 [0x02, r, g, b]) ∧
      (buildFrame 0x05 [0x02, r, g, b]).take 19 =
        [0x33, 0x05, 0x02, r.toNat, g.toNat, b.toNat] ++ List.replicate 13 0) ∧
    (set_rgb s tid 255 0 128).2 = Except.ok (buildFrame 0x05 [0x02, 255, 0, 128]) ∧
    (buildFrame 0x05 [0x02, 255, 0, 128]).take 19 =
      [0x33, 0x05, 0x02, 0xFF, 0x00, 0x80] ++ List.replicate 13 0 := by
  refine ⟨?_, ?_, rfl, by decide⟩
  · intro h
    have hany : ([2, r, g, b] : List ℤ).any
        (fun x => decide (x < 0) || decide (255 < x)) = true := by
      simp only [List.any_cons, List.any_nil, Bool.or_eq_true, decide_eq_true_eq]
      omega
    simp [set_rgb, _send, hany]
  · rintro ⟨hr0, hr1⟩ ⟨hg0, hg1⟩ ⟨hb0, hb1⟩
    have hany : ([2, r, g, b] : List ℤ).any
        (fun x => decide (x < 0) || decide (255 < x)) = false := by
      apply payloadCheck_false
      intro x hx
      simp at hx
      rcases hx with rfl | rfl | rfl | rfl <;> omega
    constructor
    · simp [set_rgb, _send, hany]
    · have ht := buildFrame_take19 0x05 [0x02, r, g, b]
        (by norm_num) (by norm_num) (by norm_num)
      simpa using ht

/-- C5 counterexample: a trace in which the queue stays empty for exactly 3
seconds (an idle poll at t = 3 with `prev_time = 0` sends nothing, since
line 40 requires `time() > prev_time + 3` strictly), a command is then
enqueued and polled at t = 3: the idle span reached 3 seconds, yet the
command is transmitted with no keep-alive frame before it. -/
theorem keepalive_boundary_cex :
    (run initState [Event.poll 3, Event.enq 0 1 [0], Event.poll 3]).transmitted =
      [(some 0, buildFrame 1 [0])] := by
  norm_num [run, step, _send, initState, List.foldl]

/-- C5 amended: one worker iteration at clock `now` on a running worker:
with an empty queue it transmits exactly one keep-alive frame and resets the
idle timer when strictly more than 3 seconds have elapsed since the last
transmission (`time() > prev_time + 3`, line 40), and transmits nothing at
or below the 3-second boundary; with a non-empty queue it transmits the head
command frame and no keep-alive. The keep-alive frame is 20 bytes: prefix
`0xAA`, command `0x01`, all-zero payload, XOR checksum in byte 19. -/
theorem keepalive_timing (s : SysState) (now : ℚ) (hstop : s.stop = false) :
    (s.queue = [] → s.prevTime + 3 < now →
      step s (Event.poll now) =
        { s with transmitted := s.transmitted ++ [(none, keepAliveFrame)],
                 prevTime := now }) ∧
    (s.queue = [] → now ≤ s.prevTime + 3 → step s (Event.poll now) = s) ∧
    (∀ f rest, s.queue = f :: rest →
      step s (Event.poll now) =
        { s with queue := rest, prevTime := now,
                 transmitted := s.transmitted ++ [f],
                 doneCount := s.doneCount + 1 }) ∧
    keepAliveFrame.length = 20 ∧
    keepAliveFrame.take 19 = 0xAA :: 0x01 :: List.replicate 17 0 ∧
    keepAliveFrame.getLast? = some (xorFold (keepAliveFrame.take 19) % 256) := by
  refine ⟨?_, ?_, ?_, by decide, by decide, by decide⟩
  · intro hq ht
    simp [step, hstop, hq, ht]
  · intro hq ht
    have hn : ¬ s.prevTime + 3 < now := not_lt.mpr ht
    simp [step, hstop, hq, hn]
  · intro f rest hq
    simp [step, hstop, hq]

theorem keepalive_timing_witness :
    step initState (Event.poll 4) =
      { initState with transmitted := [(none, keepAliveFrame)], prevTime := 4 } :=
  (keepalive_timing initState 4 rfl).1 rfl (by norm_num [initState])

/-- C6: FIFO — in every reachable state, the command frames transmitted so
far are a prefix of the frames enqueued, in enqueue order (keep-alive frames
are interleaved on the wire but never displace or reorder queue traffic),
and for every caller thread `t` the transmitted frames tagged `t` form a
prefix of the frames `t` enqueued, preserving that thread's program order
within the serialized enqueue order. -/
theorem fifo_order (es : List Event) :
    (∃ rest, cmdSent (run initState es) ++ rest = (run initState es).enqueued) ∧
    ∀ t : ℕ, ∃ rest,
      ((run initState es).transmitted.filter fun p => p.1 == some t) ++ rest =
        (run initState es).enqueued.filter fun p => p.1 == some t := by
  obtain ⟨h1, h2, h3, h4⟩ := run_inv es
  refine ⟨⟨(run initState es).queue, h1⟩, fun t =>
    ⟨(run initState es).queue.filter (fun p => p.1 == some t), ?_⟩⟩
  rw [← cmdSent_filter_tag, ← List.filter_append, h1]

/-- C7: the `Queue.join` wait that implements blocking sends (line 120) and
pre-disconnect draining: in any reachable state satisfying the drain
condition (every `put` matched by a `task_done`), the queue is empty and
every frame ever enqueued — including the blocking sender's own — has been
transmitted, in enqueue order. With the blocking flag off, `_send` returns
directly after the enqueue, as its definition shows. -/
theorem drained_all_sent (es : List Event) (h : drained (run initState es)) :
    (run initState es).queue = [] ∧
    cmdSent (run initState es) = (run initState es).enqueued := by
  obtain ⟨h1, h2, h3, h4⟩ := run_inv es
  unfold drained at h
  have hlen : (run initState es).enqueued.length =
      (cmdSent (run initState es)).length + (run initState es).queue.length := by
    rw [← h1, List.length_append]
  have hq : (run initState es).queue.length = 0 := by omega
  have hqnil : (run initState es).queue = [] := List.length_eq_zero.mp hq
  refine ⟨hqnil, ?_⟩
  rw [hqnil] at h1
  simpa using h1

theorem drained_all_sent_witness :
    (run initState [Event.enq 0 1 [0], Event.poll 1]).queue = [] ∧
    cmdSent (run initState [Event.enq 0 1 [0], Event.poll 1]) =
      (run initState [Event.enq 0 1 [0], Event.poll 1]).enqueued :=
  drained_all_sent [Event.enq 0 1 [0], Event.poll 1]
    (by norm_num [drained, run, step, _send, initState, List.foldl])

/-- C8 counterexample: after `disconnect()` (stop flag set on a reachable
state), a further `_send` does not fail with `ConnectionFailure`: it
validates the input, builds the frame and returns it as a success,
enqueueing it onto the queue of the dead worker. -/
theorem send_after_disconnect_cex :
    postDisconnect.stop = true ∧
    (_send postDisconnect 0 1 [1]).2 = Except.ok (buildFrame 1 [1]) := by
  constructor
  · norm_num [postDisconnect, run, step, _send, initState, List.foldl]
  · rfl

/-- C8 amended: `_send` never consults the worker's state (lines 90-120
check only the inputs), so after `disconnect()` a further send succeeds as
if the worker were alive and the frame is enqueued with no error. The
stopped worker makes no further transition, so no sequence of worker
iterations transmits the frame or re-establishes the drain condition: a
blocking send after disconnect waits on `Queue.join` forever, and a
non-blocking one silently leaves the frame unsent. -/
theorem send_after_stop (s : SysState) (tid : ℕ) (cmd : ℤ) (payload : List ℤ)
    (hstop : s.stop = true) :
    ((∀ x ∈ payload, 0 ≤ x ∧ x ≤ 255) → payload.length ≤ 17 →
      (_send s tid cmd payload).2 = Except.ok (buildFrame cmd payload)) ∧
    (∀ now, step s (Event.poll now) = s) ∧
    (∀ es : List Event, (∀ e ∈ es, ∃ now, e = Event.poll now) → run s es = s) := by
  have hpoll : ∀ now, step s (Event.poll now) = s := by
    intro now
    simp [step, hstop]
  refine ⟨?_, hpoll, ?_⟩
  · intro hbytes hlen
    have hany := payloadCheck_false payload hbytes
    have h17 : ¬ 17 < payload.length := by omega
    simp [_send, h17, hany]
  · intro es
    induction es with
    | nil => exact fun _ => rfl
    | cons e es ih =>
        intro hes
        obtain ⟨now, rfl⟩ := hes e (List.mem_cons_self e es)
        show run (step s (Event.poll now)) es = s
        rw [hpoll now]
        exact ih fun e' he' => hes e' (List.mem_cons_of_mem _ he')

theorem send_after_stop_witness :
    (_send postDisconnect 0 1 [1]).2 = Except.ok (buildFrame 1 [1]) ∧
    run postDisconnect [Event.poll 9] = postDisconnect := by
  have h := send_after_stop postDisconnect 0 1 [1]
    (by norm_num [postDisconnect, run, step, _send, initState, List.foldl])
  exact ⟨h.1 (by decide) (by decide), h.2.2 [Event.poll 9] (by simp)⟩

/-- C9 counterexample: with a failing initial connect, after 5 scheduler
steps the worker thread is dead and the ready flag still `False`; the
constructor's busy-wait condition is never satisfied — the `block=True`
constructor waits forever, and no `ConnectionFailure` reaches it. -/
theorem connect_failure_cex :
    readyFlag false 5 = false ∧ startAfter false 5 = StartPhase.dead ∧
    (initWaitTerminates false ↔ False) :=
  ⟨by decide, by decide, iff_false_intro not_initWaitTerminates_false⟩

/-- C9 amended: when the initial connection attempt fails, the exception
raised by `async with self.client` terminates the worker thread (lines
27-33, 53-54) without `self.ready` ever being set and without any error
being delivered to the thread that ran the constructor; a controller
constructed with `block=True` therefore busy-waits on the ready flag
forever. -/
theorem connect_failure_hangs (n : ℕ) :
    readyFlag false n = false ∧
    startAfter false (n + 1) = StartPhase.dead ∧
    ¬ initWaitTerminates false := by
  refine ⟨readyFlag_false n, ?_, not_initWaitTerminates_false⟩
  rw [startAfter]
  cases h : startAfter false n with
  | connecting => simp [startStep]
  | ready => exact absurd h (startAfter_false_ne_ready n)
  | dead => simp [startStep]

/-- C10: in every reachable state, every frame in the command queue is
caller-tagged with first byte `0x33` (the command prefix); the keep-alive
frame starts with `0xAA` and is never in the queue, so dequeuing never
yields a keep-alive; and keep-alive transmissions touch neither the put nor
the done counter, which count exactly the enqueued and the transmitted
command frames — so keep-alives never delay `Queue.join`. -/
theorem queue_only_command_frames (es : List Event) :
    ((run initState es).queue.all
      fun p => p.1.isSome && (p.2.head? == some 0x33)) = true ∧
    keepAliveFrame.head? = some 0xAA ∧
    keepAliveFrame ∉ ((run initState es).queue.map Prod.snd) ∧
    (run initState es).putCount = (run initState es).enqueued.length ∧
    (run initState es).doneCount = (cmdSent (run initState es)).length := by
  obtain ⟨h1, h2, h3, h4⟩ := run_inv es
  refine ⟨?_, rfl, ?_, h2, h3⟩
  · rw [List.all_eq_true]
    intro p hp
    obtain ⟨hs, hh⟩ := h4 p hp
    simp [hs, hh]
  · intro hmem
    rw [List.mem_map] at hmem
    obtain ⟨p, hp, hsnd⟩ := hmem
    have hh := (h4 p hp).2
    rw [hsnd] at hh
    exact absurd hh (by decide)

end PyGovee
